/-
Verification of the rustauto "nexus" session controller, tool dispatch layer
and memory store (src/nexus/src-tauri/src).

Shallow embedding conventions:
* Rust `String`/`&str` values are modelled as `Str := List Char` (a Rust
  string is a sequence of chars; `String::len` in Rust counts UTF-8 bytes,
  modelled here by `utf8Len`, while `chars().take(n)` is `List.take n`).
* The wall clock (`SystemTime::now`) is passed explicitly as a parameter.
* The remote browser is an opaque actor: each remote call's outcome
  (success / remote error / elapsed timeout) is a parameter of the modelled
  operation, and polling visibility of a selector over time is a function
  `Nat → Bool` from elapsed milliseconds to presence.
* Fallible Rust functions returning `anyhow::Result` are modelled with
  `Except`.
-/
import Mathlib

set_option maxRecDepth 4000

/-- Rust strings, modelled as their character sequences. -/
abbrev Str := List Char

/-- Number of bytes of one char in UTF-8 (what Rust `String::len` sums). -/
def charUtf8Size (c : Char) : Nat :=
  if c.val < 0x80 then 1
  else if c.val < 0x800 then 2
  else if c.val < 0x10000 then 3
  else 4

/-- Rust `String::len`: total UTF-8 byte length. -/
def utf8Len (s : Str) : Nat := (s.map charUtf8Size).sum

/-- Boolean prefix test on character lists (Rust slice prefix matching). -/
def isPrefixB : Str → Str → Bool
  | [], _ => true
  | _ :: _, [] => false
  | a :: as, b :: bs => a == b && isPrefixB as bs

/-- Rust `str::contains`: `needle` occurs as a contiguous substring of
`hay`. -/
def containsSub : Str → Str → Bool
  | [], needle => isPrefixB needle []
  | c :: rest, needle => isPrefixB needle (c :: rest) || containsSub rest needle

/-- Rust `str::to_lowercase`, restricted to the ASCII case mapping. -/
def lowerStr (s : Str) : Str := s.map Char.toLower

/- ---------------------------------------------------------------------
   Memory store (src/nexus/src-tauri/src/memory.rs)
--------------------------------------------------------------------- -/

/-- memory.rs `MemoryEntry`. -/
structure MemoryEntry where
  content : Str
  tags : List Str
  timestamp : Nat
deriving DecidableEq

/-- memory.rs `Memory`. -/
structure Memory where
  entries : List MemoryEntry
deriving DecidableEq

/-- `Memory::new`. -/
def Memory.new : Memory := ⟨[]⟩

/-- `Memory::add`; the wall-clock timestamp read from `SystemTime::now`
is passed explicitly. -/
def Memory.add (m : Memory) (content : Str) (tags : List Str)
    (timestamp : Nat) : Memory :=
  ⟨m.entries ++ [⟨content, tags, timestamp⟩]⟩

/-- `Memory::get_all`. -/
def Memory.get_all (m : Memory) : List MemoryEntry := m.entries

/-- `Memory::search`: keep entries whose lowercased content, or any
lowercased tag, contains the lowercased query as a substring. -/
def Memory.search (m : Memory) (query : Str) : List MemoryEntry :=
  let query_lower := lowerStr query
  m.entries.filter (fun entry =>
    containsSub (lowerStr entry.content) query_lower ||
    entry.tags.any (fun t => containsSub (lowerStr t) query_lower))

/-- `Memory::clear`. -/
def Memory.clear (_ : Memory) : Memory := ⟨[]⟩

/-- agent.rs `recall` tool routing: a present query goes through
`Memory::search`, an absent one through `Memory::get_all`. -/
def recall_tool (m : Memory) (query : Option Str) : List MemoryEntry :=
  match query with
  | some q => m.search q
  | none => m.get_all

/-- Spec-side predicate: `q` occurs in `s` as a case-insensitive
substring. -/
def ciSubstr (q s : Str) : Prop :=
  ∃ l r, lowerStr s = l ++ lowerStr q ++ r

/- ---------------------------------------------------------------------
   Content shaping (src/nexus/src-tauri/src/agent.rs, process_content)
--------------------------------------------------------------------- -/

/-- agent.rs `limit` inside `process_content`. -/
def contentLimit : Nat := 15000

/-- The truncation marker `format!("... (truncated, total length: {})", n)`
appended after the kept prefix. -/
def truncMarker (n : Nat) : Str :=
  ("... (truncated, total length: ".data) ++ Nat.toDigits 10 n ++ (")".data)

/-- The shaping step of `process_content`: keep the first 15000 chars;
the comparison `truncated.len() < md.len()` is on UTF-8 byte lengths. -/
def shapeContent (md : Str) : Str :=
  if utf8Len (md.take contentLimit) < utf8Len md then
    md.take contentLimit ++ truncMarker (utf8Len md)
  else md

/-- The inline placeholder `format!("Conversion failed: {}", e)` produced
by `unwrap_or_else` when the HTML→Markdown renderer fails. -/
def placeholderFor (e : Str) : Str := ("Conversion failed: ".data) ++ e

/-- agent.rs `process_content`: render outcome (ok markdown or renderer
error) degraded to a placeholder, then shaped. -/
def process_content (render : Except Str Str) : Str :=
  shapeContent (match render with
    | Except.ok md => md
    | Except.error e => placeholderFor e)

/-- radkit `ToolResult`, restricted to a string payload. -/
inductive ToolRes where
  | success (payload : Str)
  | error (msg : Str)
deriving DecidableEq

/-- agent.rs `navigate` tool body, given the controller outcome and the
renderer: controller success is shaped via `process_content`, controller
failure becomes a tool-level error payload. -/
def navigate_tool (browserRes : Except Str Str)
    (render : Str → Except Str Str) : ToolRes :=
  match browserRes with
  | Except.ok html => ToolRes.success (process_content (render html))
  | Except.error e => ToolRes.error e

/-- agent.rs `find_in_page` rendering step: `convert(...).unwrap_or_default()`
degrades a renderer failure to the empty string. -/
def find_in_page_md (render : Except Str Str) : Str :=
  match render with
  | Except.ok md => md
  | Except.error _ => []

/- ---------------------------------------------------------------------
   Session controller (src/nexus/src-tauri/src/browser.rs)
--------------------------------------------------------------------- -/

/-- Opaque remote page handle. -/
abbrev Page := Nat

/-- browser.rs `BrowserManager` session state: `current_page` is the
`Arc<Mutex<Option<Page>>>` slot; `closedPages` records, in order, the
handles on which a (best-effort) close has been issued. -/
structure BrowserState where
  current_page : Option Page
  closedPages : List Page
deriving DecidableEq

/-- Errors of `navigate_and_get_content`. -/
inductive NavError where
  | timedOut
  | remoteError (e : Str)
deriving DecidableEq

/-- Outcome of the remote work inside the 30s `timeout(...)` block of
`navigate_and_get_content`: either the new page and its content arrive in
time (with the later best-effort close of the old page possibly failing),
or the block returns an error, or the 30s budget elapses. -/
inductive NavOutcome where
  | success (page : Page) (content : Str) (closeOfOldFails : Bool)
  | remoteError (e : Str)
  | timedOut
deriving DecidableEq

/-- Observable page-lifecycle events, in program order. -/
inductive BrowserEvent where
  | pageClosed (p : Page)
  | pageBecameCurrent (p : Page)
deriving DecidableEq

/-- browser.rs `navigate_and_get_content`: on success the old page (if
any) gets a close issued — its result discarded by `let _ = ... close()` —
before the new page is stored as current; on remote error or timeout the
state is untouched (the lock is only taken in the success branch). -/
def navigateEv (st : BrowserState) (_url : Str) (o : NavOutcome) :
    BrowserState × List BrowserEvent × Except NavError Str :=
  match o with
  | NavOutcome.success p content _closeFails =>
      (⟨some p, st.closedPages ++ st.current_page.toList⟩,
       st.current_page.toList.map BrowserEvent.pageClosed ++
         [BrowserEvent.pageBecameCurrent p],
       Except.ok content)
  | NavOutcome.remoteError e => (st, [], Except.error (NavError.remoteError e))
  | NavOutcome.timedOut => (st, [], Except.error NavError.timedOut)

/-- One successful navigate call of a sequence: its url, the fresh page
handle and content the remote returns, and whether closing the previous
page fails. -/
structure NavCall where
  url : Str
  page : Page
  content : Str
  closeFails : Bool

/-- Run a sequence of successful navigate calls, collecting the final
state, the event trace and the per-call results. -/
def runNavigates (st : BrowserState) :
    List NavCall → BrowserState × List BrowserEvent × List (Except NavError Str)
  | [] => (st, [], [])
  | c :: cs =>
    let r := navigateEv st c.url (NavOutcome.success c.page c.content c.closeFails)
    let rest := runNavigates r.1 cs
    (rest.1, r.2.1 ++ rest.2.1, r.2.2 :: rest.2.2)

/-- The page that is current after navigating through `ps` starting from
current page `cur`. -/
def currentAfter : Option Page → List Page → Option Page
  | cur, [] => cur
  | _, p :: ps => currentAfter (some p) ps

/-- The pages closed, in order, while navigating through `ps` starting
from current page `cur`. -/
def closedBy : Option Page → List Page → List Page
  | _, [] => []
  | cur, p :: ps => cur.toList ++ closedBy (some p) ps

/-- The expected event trace of a successful navigate sequence: each
previously current page is closed immediately before its successor
becomes current. -/
def expectedEvents : Option Page → List Page → List BrowserEvent
  | _, [] => []
  | cur, p :: ps =>
      cur.toList.map BrowserEvent.pageClosed ++
        (BrowserEvent.pageBecameCurrent p :: expectedEvents (some p) ps)

/- ---------------------------------------------------------------------
   Selector polling, click, upload, scroll (browser.rs)
--------------------------------------------------------------------- -/

/-- Result of `wait_for_selector`, tagged with the elapsed milliseconds
at which the loop returned. -/
inductive WaitResult where
  | found (elapsedMs : Nat)
  | notFound (elapsedMs : Nat)
deriving DecidableEq

/-- browser.rs `wait_timeout`: 5 seconds, in milliseconds. -/
def waitTimeoutMs : Nat := 5000

/-- browser.rs poll interval: `sleep(Duration::from_millis(200))`. -/
def pollIntervalMs : Nat := 200

/-- The `wait_for_selector` polling loop, idealized to instantaneous
`find_element` calls: at elapsed time `e` the selector is looked up; on
failure the loop gives up when `start.elapsed() > wait_timeout`, else
sleeps 200ms and retries. `fuel` bounds the recursion; 27 iterations
cover elapsed times 0, 200, ..., 5200. -/
def waitLoop (present : Nat → Bool) : Nat → Nat → WaitResult
  | 0, e => WaitResult.notFound e
  | fuel + 1, e =>
    if present e then WaitResult.found e
    else if waitTimeoutMs < e then WaitResult.notFound e
    else waitLoop present fuel (e + pollIntervalMs)

/-- browser.rs `wait_for_selector` on a selector whose visibility over
elapsed time is `present`. -/
def wait_for_selector (present : Nat → Bool) : WaitResult :=
  waitLoop present 27 0

/-- Errors of click/upload/scroll operations. -/
inductive PageError where
  | noActivePage
  | notFound (selector : Str)
  | timedOut
deriving DecidableEq

/-- browser.rs `click_element`: requires an active page, waits for the
selector, clicks, then re-reads content (`contentAfterClick` is the
content observed by the read issued after the click). -/
def click_element (st : BrowserState) (present : Nat → Bool)
    (selector : Str) (contentAfterClick : Str) : Except PageError Str :=
  match st.current_page with
  | none => Except.error PageError.noActivePage
  | some _ =>
    match wait_for_selector present with
    | WaitResult.found _ => Except.ok contentAfterClick
    | WaitResult.notFound _ => Except.error (PageError.notFound selector)

/-- browser.rs `upload_file`: same selector-wait sub-protocol as click,
then the CDP file-set call and a content re-read. -/
def upload_file (st : BrowserState) (present : Nat → Bool)
    (selector _file_path : Str) (contentAfterUpload : Str) :
    Except PageError Str :=
  match st.current_page with
  | none => Except.error PageError.noActivePage
  | some _ =>
    match wait_for_selector present with
    | WaitResult.found _ => Except.ok contentAfterUpload
    | WaitResult.notFound _ => Except.error (PageError.notFound selector)

/-- Two's-complement wrap of an integer into the `i32` range. -/
def wrap32 (n : Int) : Int := (n + 2 ^ 31) % 2 ^ 32 - 2 ^ 31

/-- `i32` negation: exact negation wrapped into the `i32` range (the
release-build semantics of `-val` on an `i32`). -/
def i32neg (v : Int) : Int := wrap32 (-v)

/-- browser.rs `scroll_page` delta computation:
`let val = amount.unwrap_or(500); let delta = if direction == "up" { -val } else { val };` -/
def scroll_delta (direction : Str) (amount : Option Int) : Int :=
  let val := amount.getD 500
  if direction = ("up".data) then i32neg val else val

/-- browser.rs `scroll_page`: requires an active page, evaluates
`window.scrollBy(0, delta)` and re-reads content; returns the issued
delta paired with that content. -/
def scroll_page (st : BrowserState) (direction : Str) (amount : Option Int)
    (contentAfter : Str) : Except PageError (Int × Str) :=
  match st.current_page with
  | none => Except.error PageError.noActivePage
  | some _ => Except.ok (scroll_delta direction amount, contentAfter)

/- ---------------------------------------------------------------------
   Helper lemmas
--------------------------------------------------------------------- -/

lemma isPrefixB_iff (p l : Str) : isPrefixB p l = true ↔ ∃ r, l = p ++ r := by
  induction p generalizing l with
  | nil => simp [isPrefixB]
  | cons a as ih =>
    cases l with
    | nil => simp [isPrefixB]
    | cons b bs =>
      simp only [isPrefixB, Bool.and_eq_true, beq_iff_eq, ih,
        List.cons_append, List.cons.injEq]
      constructor
      · rintro ⟨rfl, r, rfl⟩
        exact ⟨r, rfl, rfl⟩
      · rintro ⟨r, rfl, rfl⟩
        exact ⟨rfl, r, rfl⟩

lemma containsSub_iff (h n : Str) :
    containsSub h n = true ↔ ∃ l r, h = l ++ n ++ r := by
  induction h with
  | nil =>
    simp only [containsSub, isPrefixB_iff]
    constructor
    · rintro ⟨r, hr⟩
      exact ⟨[], r, by simpa using hr⟩
    · rintro ⟨l, r, hlr⟩
      rcases List.append_eq_nil.mp hlr.symm with ⟨h1, h2⟩
      rcases List.append_eq_nil.mp h1 with ⟨h3, h4⟩
      exact ⟨[], by simp [h2, h4]⟩
  | cons c rest ih =>
    simp only [containsSub, Bool.or_eq_true, isPrefixB_iff, ih]
    constructor
    · rintro (⟨r, hr⟩ | ⟨l, r, hlr⟩)
      · exact ⟨[], r, by simpa using hr⟩
      · exact ⟨c :: l, r, by simp [hlr]⟩
    · rintro ⟨l, r, hlr⟩
      cases l with
      | nil => exact Or.inl ⟨r, by simpa using hlr⟩
      | cons x xs =>
        rw [List.cons_append, List.cons_append] at hlr
        injection hlr with h1 h2
        exact Or.inr ⟨xs, r, by simpa using h2⟩

lemma containsSub_nil (h : Str) : containsSub h [] = true := by
  cases h <;> rfl

lemma utf8Len_append (a b : Str) : utf8Len (a ++ b) = utf8Len a + utf8Len b := by
  simp [utf8Len]

lemma charUtf8Size_pos (c : Char) : 0 < charUtf8Size c := by
  unfold charUtf8Size
  repeat' split
  all_goals norm_num

lemma utf8Len_pos (s : Str) (h : s ≠ []) : 0 < utf8Len s := by
  cases s with
  | nil => exact absurd rfl h
  | cons c cs =>
    have := charUtf8Size_pos c
    simp only [utf8Len, List.map_cons, List.sum_cons]
    omega

lemma utf8Len_take_lt_iff (l : Str) (n : Nat) :
    utf8Len (l.take n) < utf8Len l ↔ n < l.length := by
  constructor
  · intro h
    by_contra hn
    push_neg at hn
    rw [List.take_of_length_le hn] at h
    exact lt_irrefl _ h
  · intro h
    conv_rhs => rw [← List.take_append_drop n l]
    rw [utf8Len_append]
    have hd : l.drop n ≠ [] := by
      intro hh
      rw [List.drop_eq_nil_iff] at hh
      omega
    have := utf8Len_pos _ hd
    omega

lemma truncMarker_ne_nil (n : Nat) : truncMarker n ≠ [] := by
  unfold truncMarker
  intro h
  rcases List.append_eq_nil.mp h with ⟨h1, _⟩
  rcases List.append_eq_nil.mp h1 with ⟨h2, _⟩
  exact absurd h2 (by decide)

lemma shapeContent_ne_nil (md : Str) (h : md ≠ []) : shapeContent md ≠ [] := by
  unfold shapeContent
  split
  · intro hc
    exact absurd (List.append_eq_nil.mp hc).2 (truncMarker_ne_nil _)
  · exact h

lemma runNavigates_eq (cs : List NavCall) :
    ∀ (cur : Option Page) (cl : List Page),
      runNavigates ⟨cur, cl⟩ cs =
        (⟨currentAfter cur (cs.map NavCall.page),
          cl ++ closedBy cur (cs.map NavCall.page)⟩,
         expectedEvents cur (cs.map NavCall.page),
         cs.map (fun c => Except.ok c.content)) := by
  induction cs with
  | nil =>
    intro cur cl
    simp [runNavigates, currentAfter, closedBy, expectedEvents]
  | cons c cs ih =>
    intro cur cl
    simp only [runNavigates, navigateEv, ih, List.map_cons, currentAfter,
      closedBy, expectedEvents, List.append_assoc, List.cons_append,
      List.singleton_append, List.nil_append]

lemma currentAfter_some (ps : List Page) :
    ∀ a, currentAfter (some a) ps = some (ps.getLast?.getD a) := by
  induction ps with
  | nil => intro a; rfl
  | cons p ps ih =>
    intro a
    rw [currentAfter, ih, List.getLast?_cons]
    simp

lemma currentAfter_none (ps : List Page) : currentAfter none ps = ps.getLast? := by
  cases ps with
  | nil => rfl
  | cons p ps => rw [currentAfter, currentAfter_some, List.getLast?_cons]

lemma closedBy_some (ps : List Page) :
    ∀ a, closedBy (some a) ps = (a :: ps).dropLast := by
  induction ps with
  | nil => intro a; rfl
  | cons p ps ih =>
    intro a
    rw [closedBy, ih]
    rfl

lemma closedBy_none (ps : List Page) : closedBy none ps = ps.dropLast := by
  cases ps with
  | nil => rfl
  | cons p ps => rw [closedBy, closedBy_some]; rfl

lemma wait_never (present : Nat → Bool) (h : ∀ e, present e = false) :
    wait_for_selector present = WaitResult.notFound 5200 := by
  have hp : present = fun _ => false := funext h
  rw [wait_for_selector, hp]
  decide

lemma waitLoop_found_of (present : Nat → Bool)
    (hp : present 5000 = true) :
    ∀ fuel k, 25 - k < fuel → k ≤ 25 →
      ∃ e, e ≤ 5000 ∧ waitLoop present fuel (200 * k) = WaitResult.found e := by
  intro fuel
  induction fuel with
  | zero => intro k h1 _; omega
  | succ fuel ih =>
    intro k h1 h2
    by_cases hk : present (200 * k) = true
    · refine ⟨200 * k, by omega, ?_⟩
      simp [waitLoop, hk]
    · have hk25 : k < 25 := by
        rcases Nat.lt_or_ge k 25 with hlt | hge
        · exact hlt
        · exfalso
          have hk5 : k = 25 := by omega
          rw [hk5] at hk
          have h5 : (200 : Nat) * 25 = 5000 := by norm_num
          rw [h5] at hk
          exact hk hp
      have hcond : ¬ waitTimeoutMs < 200 * k := by
        unfold waitTimeoutMs
        omega
      have hstep : 200 * k + pollIntervalMs = 200 * (k + 1) := by
        unfold pollIntervalMs
        ring
      rw [waitLoop, if_neg hk, if_neg hcond, hstep]
      exact ih (k + 1) (by omega) (by omega)

lemma wait_found (present : Nat → Bool)
    (mono : ∀ a b, a ≤ b → present a = true → present b = true)
    (t : Nat) (ht : present t = true) (hlt : t < 5000) :
    ∃ e, e ≤ 5000 ∧ wait_for_selector present = WaitResult.found e := by
  have hp : present 5000 = true := mono t 5000 (by omega) ht
  have h := waitLoop_found_of present hp 27 0 (by norm_num) (by norm_num)
  simpa [wait_for_selector] using h

lemma wrap32_eq_self (v : Int) (h1 : -(2 ^ 31) ≤ v) (h2 : v < 2 ^ 31) :
    wrap32 v = v := by
  unfold wrap32
  have e1 : (2 : Int) ^ 31 = 2147483648 := by norm_num
  have e2 : (2 : Int) ^ 32 = 4294967296 := by norm_num
  rw [e1, e2]
  rw [e1] at h1 h2
  omega

lemma i32neg_eq_neg (v : Int) (h1 : -(2 ^ 31) < v) (h2 : v < 2 ^ 31) :
    i32neg v = -v := by
  unfold i32neg
  apply wrap32_eq_self <;> omega

/- ---------------------------------------------------------------------
   Claim theorems
--------------------------------------------------------------------- -/

/-- C3. For every store state and every query q, search(q) returns exactly
the entries, in insertion order (a sublist of the entries), whose content
or at least one tag contains q as a case-insensitive substring; and after
add("price is $10", ["shopping"]), search("SHOP") returns that entry while
search("xyz") returns the empty sequence. -/
theorem claim_c3_search_matches :
    (∀ (m : Memory) (q : Str) (e : MemoryEntry),
        e ∈ m.search q ↔
          e ∈ m.entries ∧ (ciSubstr q e.content ∨ ∃ t ∈ e.tags, ciSubstr q t)) ∧
    (∀ (m : Memory) (q : Str), (m.search q).Sublist m.entries) ∧
    ((Memory.new.add ("price is $10".data) [("shopping".data)] 0).search
        ("SHOP".data) = [⟨("price is $10".data), [("shopping".data)], 0⟩]) ∧
    ((Memory.new.add ("price is $10".data) [("shopping".data)] 0).search
        ("xyz".data) = []) := by
  refine ⟨?_, ?_, by decide, by decide⟩
  · intro m q e
    simp only [Memory.search, List.mem_filter, Bool.or_eq_true,
      List.any_eq_true, containsSub_iff, ciSubstr]
  · intro m q
    exact List.filter_sublist _

/-- C7. add(content, tags) appends exactly one new entry at the end of the
collection, never mutating existing entries (the old prefix is unchanged),
and get_all() returns all entries in insertion order, so the collection
only grows. -/
theorem claim_c7_add_appends (m : Memory) (c : Str) (tg : List Str) (ts : Nat) :
    ((m.add c tg ts).entries.length = m.entries.length + 1) ∧
    ((m.add c tg ts).entries.take m.entries.length = m.entries) ∧
    ((m.add c tg ts).entries.getLast? = some ⟨c, tg, ts⟩) ∧
    ((m.add c tg ts).get_all = m.get_all ++ [⟨c, tg, ts⟩]) := by
  refine ⟨?_, ?_, ?_, rfl⟩
  · simp [Memory.add]
  · exact List.take_left _ _
  · exact List.getLast?_concat _

/-- C9. search("") returns every entry in the store (the empty query is a
case-insensitive substring of everything), so recall with a
present-but-empty query yields the same sequence as get_all(), while
recall with an absent query goes through get_all() directly. -/
theorem claim_c9_empty_query (m : Memory) :
    m.search [] = m.get_all ∧
    recall_tool m (some []) = m.get_all ∧
    recall_tool m none = m.get_all := by
  have hs : m.search [] = m.get_all := by
    unfold Memory.search Memory.get_all
    apply List.filter_eq_self.mpr
    intro a _
    simp [lowerStr, containsSub_nil]
  exact ⟨hs, hs, rfl⟩

/-- C1. For every sequence of successful navigate calls (starting from the
fresh session with no page): every call returns Ok with its content even
when closing the old page fails (close failures are swallowed, never
surfaced); afterwards exactly the last navigated page is stored as current
(at most one page at any observation point, since the theorem applies to
every such sequence, hence to every prefix); every earlier page has had a
close issued, and the event trace shows each previously current page
closed immediately before its successor becomes current. -/
theorem claim_c1_navigate_invariant (calls : List NavCall) :
    ((runNavigates ⟨none, []⟩ calls).2.2 =
      calls.map (fun c => Except.ok c.content)) ∧
    ((runNavigates ⟨none, []⟩ calls).1.current_page =
      (calls.map NavCall.page).getLast?) ∧
    ((runNavigates ⟨none, []⟩ calls).1.closedPages =
      (calls.map NavCall.page).dropLast) ∧
    ((runNavigates ⟨none, []⟩ calls).2.1 =
      expectedEvents none (calls.map NavCall.page)) := by
  rw [runNavigates_eq]
  refine ⟨rfl, ?_, ?_, rfl⟩
  · exact currentAfter_none _
  · exact closedBy_none _

/-- C5. A navigate whose internal work exceeds the 30s budget returns the
TimedOut error and leaves the session state untouched, and a following
navigate to a different URL whose remote work succeeds still succeeds:
the controller is not locked up after a timeout. -/
theorem claim_c5_timeout_recovery (st : BrowserState) (url1 url2 : Str)
    (p : Page) (c : Str) (b : Bool) :
    ((navigateEv st url1 NavOutcome.timedOut).1 = st) ∧
    ((navigateEv st url1 NavOutcome.timedOut).2.2 =
      Except.error NavError.timedOut) ∧
    ((navigateEv (navigateEv st url1 NavOutcome.timedOut).1 url2
        (NavOutcome.success p c b)).2.2 = Except.ok c) ∧
    ((navigateEv (navigateEv st url1 NavOutcome.timedOut).1 url2
        (NavOutcome.success p c b)).1.current_page = some p) :=
  ⟨rfl, rfl, rfl, rfl⟩

/-- C4. Against a selector that never appears, click and upload return
NotFound only once polling is exhausted, at elapsed 5200ms = 26 polling
intervals of 200ms, i.e. after more than the 5s wait window; against a
selector that appears at some t < 5s, the wait finds it within the window
and click/upload succeed, returning the content read after the
click/upload is issued. -/
theorem claim_c4_selector_polling (st : BrowserState) (pg : Page)
    (hpg : st.current_page = some pg)
    (sel fp postC postU : Str)
    (pNever : Nat → Bool) (hNever : ∀ e, pNever e = false)
    (pLate : Nat → Bool)
    (mono : ∀ a b, a ≤ b → pLate a = true → pLate b = true)
    (t : Nat) (ht : pLate t = true) (hlt : t < waitTimeoutMs) :
    (wait_for_selector pNever = WaitResult.notFound (26 * pollIntervalMs)) ∧
    (waitTimeoutMs < 26 * pollIntervalMs) ∧
    (click_element st pNever sel postC = Except.error (PageError.notFound sel)) ∧
    (upload_file st pNever sel fp postU = Except.error (PageError.notFound sel)) ∧
    (∃ e, e ≤ waitTimeoutMs ∧ wait_for_selector pLate = WaitResult.found e) ∧
    (click_element st pLate sel postC = Except.ok postC) ∧
    (upload_file st pLate sel fp postU = Except.ok postU) := by
  have hw : wait_for_selector pNever = WaitResult.notFound 5200 :=
    wait_never pNever hNever
  have hlt5 : t < 5000 := by
    unfold waitTimeoutMs at hlt
    exact hlt
  obtain ⟨e, he, hwe⟩ := wait_found pLate mono t ht hlt5
  refine ⟨?_, by decide, ?_, ?_, ⟨e, ?_, hwe⟩, ?_, ?_⟩
  · simpa [pollIntervalMs] using hw
  · simp [click_element, hpg, hw]
  · simp [upload_file, hpg, hw]
  · unfold waitTimeoutMs
    exact he
  · simp [click_element, hpg, hwe]
  · simp [upload_file, hpg, hwe]

/-- C4 witness: a concrete never-appearing selector yields NotFound, and a
selector appearing at 1000ms yields success with the post-click content. -/
theorem claim_c4_selector_polling_witness :
    (click_element ⟨some 0, []⟩ (fun _ => false) ("#btn".data) ("after".data) =
      Except.error (PageError.notFound ("#btn".data))) ∧
    (click_element ⟨some 0, []⟩ (fun e => decide (1000 ≤ e)) ("#btn".data)
      ("after".data) = Except.ok ("after".data)) := by
  have h := claim_c4_selector_polling ⟨some 0, []⟩ 0 rfl
      ("#btn".data) ("f.txt".data) ("after".data) ("res".data)
      (fun _ => false) (fun _ => rfl)
      (fun e => decide (1000 ≤ e))
      (fun a b hab ha => decide_eq_true (Nat.le_trans (of_decide_eq_true ha) hab))
      1000 (by decide) (by decide)
  exact ⟨h.2.2.1, h.2.2.2.2.2.1⟩

/-- C8. Whenever the HTML→text renderer fails, the failure degrades to an
inline placeholder string inside a successful tool result rather than
propagating as an error: the navigate tool (representative of all
content-returning tools, which share process_content) yields a success
payload that is the shaped placeholder text, which is nonempty, and its
result is a success for every renderer outcome; find_in_page likewise
swallows the renderer failure, degrading to the default empty text. -/
theorem claim_c8_renderer_degrades (err html : Str) :
    (navigate_tool (Except.ok html) (fun _ => Except.error err) =
      ToolRes.success (shapeContent (placeholderFor err))) ∧
    (shapeContent (placeholderFor err) ≠ []) ∧
    (∀ render : Str → Except Str Str, ∃ payload,
      navigate_tool (Except.ok html) render = ToolRes.success payload) ∧
    (find_in_page_md (Except.error err) = []) := by
  refine ⟨rfl, ?_, ?_, rfl⟩
  · apply shapeContent_ne_nil
    intro h
    rcases List.append_eq_nil.mp h with ⟨h1, _⟩
    exact absurd h1 (by decide)
  · intro render
    exact ⟨process_content (render html), rfl⟩

/-- C2 counterexample. The claim fails on non-ASCII rendered text. First
conjunct (lengths read as character counts, as "character budget" suggests):
for a text of 15001 characters ending in a 2-byte character, the code's
marker reports 15002 — the UTF-8 byte length — not the original length
15001, so the output is not the kept prefix followed by
"... (truncated, total length: L)". Remaining conjuncts (lengths read as
byte counts): a text of 8000 two-byte characters has byte length
16000 > 15000 yet is returned unmodified, with no truncation at all. -/
theorem claim_c2_counterexample :
    (shapeContent (List.replicate 15000 'a' ++ ['é']) ≠
      (List.replicate 15000 'a' ++ ['é']).take 15000 ++
        truncMarker (List.replicate 15000 'a' ++ ['é']).length) ∧
    (shapeContent (List.replicate 8000 'é') = List.replicate 8000 'é') ∧
    (contentLimit < utf8Len (List.replicate 8000 'é')) := by
  have hsa : charUtf8Size 'a' = 1 := rfl
  have hse : charUtf8Size 'é' = 2 := rfl
  have hta : (List.replicate 15000 'a' ++ ['é']).take 15000 =
      List.replicate 15000 'a' :=
    List.take_left' (List.length_replicate _ _)
  have hua : utf8Len (List.replicate 15000 'a') = 15000 := by
    rw [utf8Len, List.map_replicate, hsa, List.sum_replicate, smul_eq_mul,
      Nat.mul_one]
  have huA : utf8Len (List.replicate 15000 'a' ++ ['é']) = 15002 := by
    rw [utf8Len_append, hua]
    rfl
  have hlenA : (List.replicate 15000 'a' ++ ['é']).length = 15001 := by
    rw [List.length_append, List.length_replicate]
    rfl
  have hub : utf8Len (List.replicate 8000 'é') = 16000 := by
    rw [utf8Len, List.map_replicate, hse, List.sum_replicate, smul_eq_mul]
  have hshapeA : shapeContent (List.replicate 15000 'a' ++ ['é']) =
      List.replicate 15000 'a' ++ truncMarker 15002 := by
    unfold shapeContent contentLimit
    rw [hta, hua, huA, if_pos (by norm_num)]
  refine ⟨?_, ?_, ?_⟩
  · intro heq
    rw [hshapeA, hta, hlenA] at heq
    exact absurd (List.append_cancel_left heq) (by decide)
  · unfold shapeContent
    rw [List.take_of_length_le
      (by rw [List.length_replicate]; unfold contentLimit; norm_num)]
    rw [if_neg (lt_irrefl _)]
  · rw [hub]
    unfold contentLimit
    norm_num

/-- C2 amended. Content shaping measures the cut in characters: the output
is the input unmodified exactly when the character count is at most the
budget 15000; otherwise it is the first 15000 characters followed by the
literal suffix "... (truncated, total length: N)" where N is the UTF-8
byte length of the rendered text (equal to the character count L only for
ASCII text); the code's truncation condition (byte length of the kept
prefix less than byte length of the whole) is equivalent to the character
count exceeding the budget. -/
theorem claim_c2_amended (md : Str) :
    (shapeContent md =
      if contentLimit < md.length then
        md.take contentLimit ++ truncMarker (utf8Len md)
      else md) ∧
    (utf8Len (md.take contentLimit) < utf8Len md ↔ contentLimit < md.length) := by
  have hiff := utf8Len_take_lt_iff md contentLimit
  constructor
  · unfold shapeContent
    by_cases h : contentLimit < md.length
    · rw [if_pos (hiff.mpr h), if_pos h]
    · rw [if_neg (fun hc => h (hiff.mp hc)), if_neg h]
  · exact hiff

/-- C6 counterexample. The claim fails at the one i32 value with no
representable negation: for scroll("up", Some(-2147483648)) the issued
delta is -2147483648 (two's-complement wrap of `-val`), not the exact
negation +2147483648. -/
theorem claim_c6_counterexample :
    (scroll_delta ("up".data) (some (-2147483648)) = -2147483648) ∧
    (scroll_delta ("up".data) (some (-2147483648)) ≠
      -(-2147483648 : Int)) := by
  constructor
  · decide
  · decide

/-- C6 amended. The logical scroll delta is the given amount (default 500
when absent) negated in two's-complement i32 arithmetic exactly when the
direction is "up" — exact negation for every representable amount except
-2^31, where the wrapped result stays -2^31 — and the amount itself when
the direction is not "up"; scroll("down", None) issues +500 and
scroll("up", Some(200)) issues -200. -/
theorem claim_c6_amended (d : Str) (amount : Option Int)
    (h1 : -(2 ^ 31) ≤ amount.getD 500) (h2 : amount.getD 500 < 2 ^ 31) :
    (d = ("up".data) → scroll_delta d amount = i32neg (amount.getD 500)) ∧
    (d = ("up".data) → amount.getD 500 ≠ -(2 ^ 31) →
      scroll_delta d amount = -(amount.getD 500)) ∧
    (¬ d = ("up".data) → scroll_delta d amount = amount.getD 500) ∧
    (scroll_delta ("down".data) none = 500) ∧
    (scroll_delta ("up".data) (some 200) = -200) := by
  refine ⟨?_, ?_, ?_, by decide, by decide⟩
  · intro hd
    simp [scroll_delta, hd]
  · intro hd hne
    have hs : scroll_delta d amount = i32neg (amount.getD 500) := by
      simp [scroll_delta, hd]
    rw [hs]
    exact i32neg_eq_neg _ (lt_of_le_of_ne h1 (Ne.symm hne)) h2
  · intro hd
    simp [scroll_delta, hd]

/-- C6 witness: the amended theorem at direction "up" and amount 200. -/
theorem claim_c6_amended_witness :
    scroll_delta ("up".data) (some 200) = -200 := by
  have h := claim_c6_amended ("up".data) (some 200) (by decide) (by decide)
  exact h.2.2.2.2

/-- C10 counterexample. A direction other than exactly "up" takes the
downward branch, but the delta is not always positive: with direction
"Up" and amount Some(-200) the issued delta is -200, a negative
(upward) scroll. -/
theorem claim_c10_counterexample :
    (scroll_delta ("Up".data) (some (-200)) = -200) ∧
    (¬ (0 : Int) < scroll_delta ("Up".data) (some (-200))) ∧
    (("Up".data) ≠ ("up".data)) := by
  refine ⟨by decide, by decide, by decide⟩

/-- C10 amended. scroll_page does not validate the direction argument:
for every direction string other than exactly "up" (including "Up",
"UP", the empty string, or arbitrary text) the operation takes the
un-negated branch, issuing the amount itself (default 500) as the delta —
which is positive, i.e. a downward scroll, whenever the amount is absent
or positive. -/
theorem claim_c10_amended (d : Str) (amount : Option Int)
    (h : ¬ d = ("up".data)) :
    (scroll_delta d amount = amount.getD 500) ∧
    (scroll_delta d none = 500) ∧
    ((0 : Int) < amount.getD 500 → (0 : Int) < scroll_delta d amount) := by
  have h1 : scroll_delta d amount = amount.getD 500 := by
    simp [scroll_delta, h]
  refine ⟨h1, by simp [scroll_delta, h], fun hp => h1 ▸ hp⟩

/-- C10 witness: the amended theorem at direction "UP" and amount 200. -/
theorem claim_c10_amended_witness :
    scroll_delta ("UP".data) (some 200) = 200 := by
  have h := claim_c10_amended ("UP".data) (some 200) (by decide)
  exact h.1
